import Mathlib

/-!
Verification of the manifest-to-plan compiler and plan executor of
`vk_executor.py` (with its caller `entrypoint.py`).

The embedding is shallow:
* the typed data model (Manifest / TaskDecl / Step / Plan / StepResult /
  Report) mirrors the dictionaries the Python code builds and consumes;
* for `validate_manifest`, which receives arbitrary structurally-parseable
  JSON, the input is embedded as an association list of JSON values
  (`JVal`), and Python exceptions (`TypeError` on hashing an unhashable
  value) are modelled with `Except`;
* the MCP client is modelled as an explicit state machine whose two
  mutating operations either return a response record or raise
  (`Except String RemoteResponse`); `execute_plan` threads the client
  state through the step loop exactly as the source does.
-/

set_option maxHeartbeats 1000000

/-! ## JSON values (for `validate_manifest`, which takes a raw dict) -/

/-- A structurally-parseable JSON value, as produced by `json.loads`. -/
inductive JVal where
  | null
  | bool (b : Bool)
  | num (n : Int)
  | str (s : String)
  | arr (xs : List JVal)
  | obj (kvs : List (String × JVal))

/-- A Python dict with JSON values: an association list (keys unique). -/
def JDict := List (String × JVal)

/-! ## Constants (vk_executor.py lines 17-26) -/

/-- `VALID_EXECUTORS` (a Python set; embedded as a list, order irrelevant
to membership). -/
def VALID_EXECUTORS : List String :=
  ["claude-code", "codex", "gemini", "amp", "copilot",
   "cursor_agent", "qwen-code", "droid", "opencode"]

/-- `VALID_PRIORITIES`. -/
def VALID_PRIORITIES : List String := ["Urgent", "High", "Medium", "Low"]

/-- `REQUIRED_MANIFEST_KEYS`. The source is a Python set whose iteration
order is unspecified; we fix the literal's order, which only affects the
relative order of the missing-key messages, not which messages appear. -/
def REQUIRED_MANIFEST_KEYS : List String := ["version", "tasks", "project"]

/-! ## validate_manifest (vk_executor.py lines 150-182)

Python raises `TypeError` when an unhashable value (list or dict) is
tested for membership in a set, as in `task["executor"] not in
VALID_EXECUTORS`; `chkMember` reproduces this with `Except.error`. -/

/-- Membership test `v in <set of strings>` with Python semantics:
lists and dicts are unhashable and raise `TypeError`; any other
non-string value hashes fine and is simply not a member. -/
def chkMember (v : JVal) (s : List String) : Except String Bool :=
  match v with
  | .arr _ => .error "TypeError: unhashable type: list"
  | .obj _ => .error "TypeError: unhashable type: dict"
  | .str x => .ok (s.contains x)
  | _ => .ok false

/-- The `title` check of the task loop (lines 169-170). -/
def titleErrsOf (i : Nat) (kvs : List (String × JVal)) : List String :=
  if (kvs.lookup "title").isSome then []
  else [s!"Task {i} missing required key: title"]

/-- The `executor` check of the task loop (lines 171-175): only runs
when the key is present; the set-membership test may raise. -/
def execErrsE (i : Nat) (kvs : List (String × JVal)) :
    Except String (List String) :=
  match kvs.lookup "executor" with
  | none => pure []
  | some v => do
      let mem ← chkMember v VALID_EXECUTORS
      pure (if mem then [] else [s!"Task {i} has invalid executor"])

/-- The `priority` check of the task loop (lines 176-180). -/
def prioErrsE (i : Nat) (kvs : List (String × JVal)) :
    Except String (List String) :=
  match kvs.lookup "priority" with
  | none => pure []
  | some v => do
      let mem ← chkMember v VALID_PRIORITIES
      pure (if mem then [] else [s!"Task {i} has invalid priority"])

/-- The per-task body of the `for i, task in enumerate(tasks)` loop
(lines 165-180): not-a-dict check (with `continue`), then title,
executor and priority checks, accumulating messages in that order. -/
def validateTask (i : Nat) (t : JVal) : Except String (List String) :=
  match t with
  | .obj kvs => do
      let execErrs ← execErrsE i kvs
      let prioErrs ← prioErrsE i kvs
      pure (titleErrsOf i kvs ++ execErrs ++ prioErrs)
  | _ => .ok [s!"Task {i} is not a dict"]

/-- The task loop itself, accumulating errors across all tasks; an
uncaught `TypeError` from any task aborts the whole function. -/
def validateTasks (i : Nat) : List JVal → Except String (List String)
  | [] => .ok []
  | t :: rest => do
      let es ← validateTask i t
      let esr ← validateTasks (i + 1) rest
      pure (es ++ esr)

/-- The missing-required-key messages (lines 154-156). -/
def keyErrsOf (m : JDict) : List String :=
  REQUIRED_MANIFEST_KEYS.filterMap fun k =>
    if (List.lookup k m).isSome then none
    else some s!"Missing required key: {k}"

/-- The `tasks` section of the checks (lines 158-180): nothing when the
key is absent, the not-a-list or empty-list message, or the accumulated
per-task messages. -/
def tasksErrsE (m : JDict) : Except String (List String) :=
  match List.lookup "tasks" m with
  | none => pure []
  | some v =>
    match v with
    | .arr ts =>
      if ts.length = 0 then pure ["No tasks found -- tasks list is empty"]
      else validateTasks 0 ts
    | _ => pure ["tasks must be a list"]

/-- `validate_manifest(manifest)` (lines 150-182): the missing-key
messages followed by the `tasks` messages. -/
def validate_manifest (m : JDict) : Except String (List String) := do
  let taskErrs ← tasksErrsE m
  pure (keyErrsOf m ++ taskErrs)

/-! ## Spec-side characterisation of the validator

`validateManifestSpec` follows the spec's words: scan the required
keys and then every task, accumulating all violations, returning a
plain list and never raising.  The hashability side condition marks
exactly the inputs on which the source can raise. -/

/-- A value Python can hash (everything except lists and dicts). -/
def hashableJ : JVal → Bool
  | .arr _ => false
  | .obj _ => false
  | _ => true

/-- Set membership on hashable values: only equal to a string when it
is that string. -/
def memberPure (v : JVal) (s : List String) : Bool :=
  match v with
  | .str x => s.contains x
  | _ => false

/-- The key's value, when present, is hashable. -/
def fieldHashable (kvs : List (String × JVal)) (k : String) : Bool :=
  match kvs.lookup k with
  | some v => hashableJ v
  | none => true

/-- Both enumerated-value fields of a task entry are hashable (true
for non-dict entries, which are rejected before any membership test). -/
def taskFieldsHashable : JVal → Bool
  | .obj kvs => fieldHashable kvs "executor" && fieldHashable kvs "priority"
  | _ => true

/-- Every task entry of the manifest has hashable executor/priority
values (vacuously true when `tasks` is absent or not a list). -/
def manifestHashable (m : JDict) : Bool :=
  match List.lookup "tasks" m with
  | some (.arr ts) => ts.all taskFieldsHashable
  | _ => true

/-- Spec-side executor check: pure, never raises. -/
def execErrsSpec (i : Nat) (kvs : List (String × JVal)) : List String :=
  match kvs.lookup "executor" with
  | none => []
  | some v =>
      if memberPure v VALID_EXECUTORS then []
      else [s!"Task {i} has invalid executor"]

/-- Spec-side priority check: pure, never raises. -/
def prioErrsSpec (i : Nat) (kvs : List (String × JVal)) : List String :=
  match kvs.lookup "priority" with
  | none => []
  | some v =>
      if memberPure v VALID_PRIORITIES then []
      else [s!"Task {i} has invalid priority"]

/-- Spec-side per-task check. -/
def validateTaskSpec (i : Nat) (t : JVal) : List String :=
  match t with
  | .obj kvs => titleErrsOf i kvs ++ execErrsSpec i kvs ++ prioErrsSpec i kvs
  | _ => [s!"Task {i} is not a dict"]

/-- Spec-side task loop: visits every task, accumulating. -/
def validateTasksSpec (i : Nat) : List JVal → List String
  | [] => []
  | t :: rest => validateTaskSpec i t ++ validateTasksSpec (i + 1) rest

/-- Spec-side `tasks` section. -/
def tasksErrsSpec (m : JDict) : List String :=
  match List.lookup "tasks" m with
  | none => []
  | some v =>
    match v with
    | .arr ts =>
      if ts.length = 0 then ["No tasks found -- tasks list is empty"]
      else validateTasksSpec 0 ts
    | _ => ["tasks must be a list"]

/-- Spec-side validator: a plain list of all violations, total. -/
def validateManifestSpec (m : JDict) : List String :=
  keyErrsOf m ++ tasksErrsSpec m

/-- The Manifest invariant, from the spec's words: non-empty project
name (a string), non-empty task sequence, every task titled with a
non-empty string. -/
def nonEmptyStr : Option JVal → Bool
  | some (.str s) => !(s == "")
  | _ => false

/-- A task entry declaring a non-empty string title. -/
def taskHasNonEmptyTitle : JVal → Bool
  | .obj kvs => nonEmptyStr (kvs.lookup "title")
  | _ => false

/-- The claimed Manifest invariant. -/
def manifestInvariantSpec (m : JDict) : Bool :=
  nonEmptyStr (List.lookup "project" m)
    && (match List.lookup "tasks" m with
        | some (.arr ts) => !ts.isEmpty && ts.all taskHasNonEmptyTitle
        | _ => false)

/-! ## Raw-dict manifest fixtures -/

/-- A manifest whose task declares a list-valued executor: structurally
parseable JSON, but the executor membership test hashes a list. -/
def listExecManifest : JDict :=
  [("version", .str "1.0.0"), ("project", .str "P"),
   ("tasks", .arr [.obj [("title", .str "x"),
     ("executor", .arr [.str "claude-code"])]])]

/-- A manifest with several violations, all of hashable type: missing
version; task 0 not a dict; task 1 with no title, an invalid executor
and an invalid priority. -/
def multiErrManifest : JDict :=
  [("project", .str "P"),
   ("tasks", .arr [.num 3,
     .obj [("executor", .str "bad-bot"), ("priority", .str "Critical")]])]

/-- A manifest the validator fully accepts although its project name
and its only task title are empty strings. -/
def emptyStringsManifest : JDict :=
  [("version", .str "1.0.0"), ("project", .str ""),
   ("tasks", .arr [.obj [("title", .str "")]])]

/-- A fully valid raw-dict manifest. -/
def validRawManifest : JDict :=
  [("version", .str "1.0.0"), ("project", .str "Test Project"),
   ("tasks", .arr [.obj [("title", .str "Build the widget"),
     ("executor", .str "claude-code")]])]

/-! ## The typed data model (spec section 3) used by the planner -/

/-- A subtask declaration: either a bare title string or a structured
record (of which only `title` is read, via `sub.get("title", "")`). -/
inductive SubDecl where
  | bare (s : String)
  | structured (title : Option String)

/-- `sub if isinstance(sub, str) else sub.get("title", "")` (line 222). -/
def subTitle : SubDecl → String
  | .bare s => s
  | .structured t => t.getD ""

/-- A task declaration; `none` models an absent key, so every
`task.get(key, default)` in the source becomes `Option.getD`. -/
structure TaskDecl where
  title : String
  description : Option String
  priority : Option String
  tags : Option (List String)
  executor : Option String
  repo : Option String
  base_branch : Option String
  subtasks : Option (List SubDecl)

/-- The manifest `defaults` record (executor / repo / base_branch). -/
structure Defaults where
  executor : Option String
  repo : Option String
  base_branch : Option String

/-- `manifest.get("defaults", {})` falls back to an empty dict. -/
def emptyDefaults : Defaults := ⟨none, none, none⟩

/-- The manifest as consumed by planner and reporter (`source` is the
opaque provenance metadata the reporter copies through). -/
structure Manifest where
  project : Option String
  defaults : Option Defaults
  tasks : List TaskDecl
  source : Option JVal

/-- An execution step: the two dict shapes built at lines 203-218 and
223-230, as a tagged union. -/
inductive Step where
  | createTask (title description priority : String)
      (tags : List String) (parent_title : Option String)
  | startWorkspace (title executor repo base_branch : String)

/-- `s["action"] == "start_workspace"` (line 233). -/
def isStartWorkspace : Step → Bool
  | .startWorkspace _ _ _ _ => true
  | _ => false

/-- The plan summary dict (lines 237-241). -/
structure Summary where
  total_tasks : Nat
  total_subtasks : Nat
  total_workspaces : Nat

/-- A plan: ordered steps plus summary (lines 235-242). -/
structure Plan where
  steps : List Step
  summary : Summary

/-! ## plan_execution (vk_executor.py lines 187-242) -/

/-- The body of the `for task in tasks` loop (lines 198-230): the
task's create_task step, its start_workspace step, then one create_task
step per subtask in declared order. -/
def taskSteps (default_executor default_repo default_branch : String)
    (task : TaskDecl) : List Step :=
  let executor := task.executor.getD default_executor
  let repo := task.repo.getD default_repo
  let branch := task.base_branch.getD default_branch
  Step.createTask task.title (task.description.getD "")
      (task.priority.getD "Medium") (task.tags.getD []) none
    :: Step.startWorkspace task.title executor repo branch
    :: (task.subtasks.getD []).map fun sub =>
        Step.createTask (subTitle sub) ("Subtask of: " ++ task.title)
          (task.priority.getD "Medium") (task.tags.getD [])
          (some task.title)

/-- `plan_execution(manifest)`: defaults resolution (lines 190-193),
the step loop, and the summary counts. The loop appends `taskSteps`
for each task in order, i.e. joins the per-task blocks; the
`total_subtasks` counter sums the subtask list lengths. -/
def plan_execution (m : Manifest) : Plan :=
  let defaults := m.defaults.getD emptyDefaults
  let default_executor := defaults.executor.getD "claude-code"
  let default_repo := defaults.repo.getD ""
  let default_branch := defaults.base_branch.getD "main"
  let steps :=
    (m.tasks.map (taskSteps default_executor default_repo default_branch)).join
  { steps := steps
    summary :=
      { total_tasks := m.tasks.length
        total_subtasks := (m.tasks.map fun t => (t.subtasks.getD []).length).sum
        total_workspaces := (steps.filter isStartWorkspace).length } }

/-! ## The MCP client boundary and execute_plan (lines 247-301)

The client is modelled as a state machine: each operation takes the
current client state and returns the next state together with either a
parsed response record (`Except.ok`) or a raised exception's message
(`Except.error`).  Quantifying theorems over every such client covers
clients whose calls fail, fail intermittently, or always succeed. -/

/-- The fields of a client response dict that `execute_plan` reads
(`resp.get("issue_id", resp.get("id", ""))`, `resp.get("workspace_id",
"")`). -/
structure RemoteResponse where
  issue_id : Option String
  id : Option String
  workspace_id : Option String

/-- The Remote Client Interface as used by `execute_plan`. -/
structure Client (σ : Type) where
  create_task : σ → String → String → String → σ × Except String RemoteResponse
  start_workspace :
    σ → String → String → String → String → String → σ × Except String RemoteResponse

/-- One observable remote call, as issued by `execute_plan`:
`create_task(project_id, title, description)` or
`start_workspace(task_id, title, executor, repo_id, base_branch)`. -/
inductive Call where
  | create (project_id title description : String)
  | start (task_id title executor repo base_branch : String)

/-- Wraps a client so that its state also logs every call made, in
order; the underlying responses are unchanged.  This plays the role of
a mock/spy client and lets "each step is attempted exactly once" be
stated about the log. -/
def loggingClient {σ : Type} (c : Client σ) : Client (σ × List Call) :=
  { create_task := fun st pid t d =>
      let r := c.create_task st.1 pid t d
      ((r.1, st.2 ++ [Call.create pid t d]), r.2)
    start_workspace := fun st tid t e rp br =>
      let r := c.start_workspace st.1 tid t e rp br
      ((r.1, st.2 ++ [Call.start tid t e rp br]), r.2) }

/-- A per-step result dict (lines 260-299): `action`, `title` and
`status` are always present; the other keys only in the branches that
set them, hence `Option`. -/
structure StepResult where
  action : String
  title : String
  status : String
  task_id : Option String
  workspace_id : Option String
  executor : Option String
  error : Option String
  detail : Option RemoteResponse

/-- The `title_to_task_id` dict.  Python dict assignment overwrites;
prepending and reading the first match (`List.lookup`) realises the
same last-writer-wins lookup. -/
def Table := List (String × String)

/-- `title_to_task_id.get(title, "")` (line 276). -/
def tableGet (tbl : Table) (title : String) : String :=
  (List.lookup title tbl).getD ""

/-- The body of the `for step in plan["steps"]` loop (lines 252-299),
threading client state, the title→identifier table and the accumulated
results. -/
def execStep {σ : Type} (client : Client σ) (project_id : String)
    (st : σ × Table × List StepResult) : Step → σ × Table × List StepResult
  | .createTask title desc _ _ _ =>
      match client.create_task st.1 project_id title desc with
      | (s2, .ok resp) =>
          let task_id := resp.issue_id.getD (resp.id.getD "")
          (s2, (title, task_id) :: st.2.1,
            st.2.2 ++ [⟨"create_task", title, "success", some task_id, none,
              none, none, some resp⟩])
      | (s2, .error e) =>
          (s2, st.2.1,
            st.2.2 ++ [⟨"create_task", title, "error", none, none, none,
              some e, none⟩])
  | .startWorkspace title executor repo branch =>
      let task_id := tableGet st.2.1 title
      match client.start_workspace st.1 task_id title executor repo branch with
      | (s2, .ok resp) =>
          (s2, st.2.1,
            st.2.2 ++ [⟨"start_workspace", title, "success", some task_id,
              some (resp.workspace_id.getD ""), some executor, none,
              some resp⟩])
      | (s2, .error e) =>
          (s2, st.2.1,
            st.2.2 ++ [⟨"start_workspace", title, "error", none, none, none,
              some e, none⟩])

/-- The whole loop: final client state, table and results. -/
def execAll {σ : Type} (plan : Plan) (client : Client σ) (s0 : σ)
    (project_id : String) : σ × Table × List StepResult :=
  plan.steps.foldl (execStep client project_id) (s0, [], [])

/-- `execute_plan(plan, client, project_id)` (lines 247-301): the
ordered list of per-step results. -/
def execute_plan {σ : Type} (plan : Plan) (client : Client σ) (s0 : σ)
    (project_id : String) : List StepResult :=
  (execAll plan client s0 project_id).2.2

/-- The call log accumulated when a plan is executed against the
logging wrapper of a client, starting from an empty log. -/
def executionLog {σ : Type} (plan : Plan) (client : Client σ) (s0 : σ)
    (project_id : String) : List Call :=
  (execAll plan (loggingClient client) (s0, []) project_id).1.2

/-! ## Spec-side characterisations used to state the claims -/

/-- (action, title) tag of a result. -/
def resultTag (r : StepResult) : String × String := (r.action, r.title)

/-- (action, title) tag of a step. -/
def stepActionTitle : Step → String × String
  | .createTask t _ _ _ _ => ("create_task", t)
  | .startWorkspace t _ _ _ => ("start_workspace", t)

/-- (action kind, title) of a call. -/
def callTag : Call → String × String
  | .create _ t _ => ("create_task", t)
  | .start _ t _ _ _ => ("start_workspace", t)

/-- (action, title, parent_title) tag of a step. -/
def stepTag : Step → String × String × Option String
  | .createTask t _ _ _ p => ("create_task", t, p)
  | .startWorkspace t _ _ _ => ("start_workspace", t, none)

/-- The step skeleton the spec prescribes: for each task in manifest
order, its create_task tag, then its start_workspace tag, then one
create_task tag per subtask in declared order, each carrying the parent
task's title (so no subtask gets a workspace tag). -/
def orderedTagsSpec (m : Manifest) : List (String × String × Option String) :=
  (m.tasks.map fun t =>
    ("create_task", t.title, (none : Option String))
      :: ("start_workspace", t.title, none)
      :: (t.subtasks.getD []).map fun s =>
          ("create_task", subTitle s, some t.title)).join

/-- Total number of subtask entries across all tasks. -/
def totalSubtaskEntries (m : Manifest) : Nat :=
  (m.tasks.map fun t => (t.subtasks.getD []).length).sum

/-- Effective executor per the spec: task-level, else manifest default,
else `"claude-code"`. -/
def resolvedExecutorSpec (m : Manifest) (t : TaskDecl) : String :=
  t.executor.getD ((m.defaults.getD emptyDefaults).executor.getD "claude-code")

/-- Effective repo per the spec: task-level, else manifest default,
else the empty repo. -/
def resolvedRepoSpec (m : Manifest) (t : TaskDecl) : String :=
  t.repo.getD ((m.defaults.getD emptyDefaults).repo.getD "")

/-- Effective base branch per the spec: task-level, else manifest
default, else `"main"`. -/
def resolvedBranchSpec (m : Manifest) (t : TaskDecl) : String :=
  t.base_branch.getD ((m.defaults.getD emptyDefaults).base_branch.getD "main")

/-- A client whose every call raises (e.g. transport failure). -/
def failingClient : Client Unit :=
  { create_task := fun s _ _ _ => (s, .error "MCP error")
    start_workspace := fun s _ _ _ _ _ => (s, .error "MCP error") }

/-- A client whose every call succeeds with fixed identifiers. -/
def okClient : Client Unit :=
  { create_task := fun s _ _ _ => (s, .ok ⟨some "task-001", none, none⟩)
    start_workspace := fun s _ _ _ _ _ => (s, .ok ⟨none, none, some "ws-001"⟩) }

/-! ## build_execution_report (vk_executor.py lines 306-325)

`datetime.now(timezone.utc).isoformat()` is an external clock; it is
passed in as the `executed_at` argument of the embedding. -/

/-- The report summary dict (lines 317-323). -/
structure ReportSummary where
  total_steps : Nat
  succeeded : Nat
  failed : Nat
  total_tasks : Nat
  total_workspaces : Nat

/-- The execution report dict (lines 312-325). -/
structure Report where
  project : String
  project_id : String
  executed_at : String
  source : JVal
  summary : ReportSummary
  results : List StepResult

/-- `build_execution_report(manifest, plan, results, project_id)`:
`succeeded` and `failed` count results with status `"success"` resp.
`"error"`; the plan summary counts are copied through. -/
def build_execution_report (manifest : Manifest) (plan : Plan)
    (results : List StepResult) (project_id executed_at : String) : Report :=
  { project := manifest.project.getD ""
    project_id := project_id
    executed_at := executed_at
    source := manifest.source.getD (.obj [])
    summary :=
      { total_steps := results.length
        succeeded := results.countP fun r => r.status == "success"
        failed := results.countP fun r => r.status == "error"
        total_tasks := plan.summary.total_tasks
        total_workspaces := plan.summary.total_workspaces }
    results := results }

/-! ## VKMcpClient.start_workspace argument construction (lines 119-128)

The remote call itself is transport; what the function decides is the
argument object sent to `start_workspace_session`. -/

/-- One entry of the `repos` argument. -/
structure RepoEntry where
  repo_id : String
  base_branch : String

/-- The argument object of `start_workspace_session`: `issue_id` is an
optional key (present only when a task identifier was given). -/
structure WorkspaceArgs where
  title : String
  executor : String
  repos : List RepoEntry
  issue_id : Option String

/-- `str.upper()` modelled character-wise; on the ASCII executor kind
names this agrees with Python's Unicode uppercasing. -/
def pyUpper (s : String) : String := ⟨s.data.map Char.toUpper⟩

/-- The `args` dict built by `VKMcpClient.start_workspace` (lines
121-127): the executor is uppercased, `repos` is empty when `repo_id`
is falsy (empty), and `issue_id` is set only when `task_id` is truthy
(non-empty). -/
def start_workspace_args (task_id title executor repo_id base_branch : String) :
    WorkspaceArgs :=
  { title := title
    executor := pyUpper executor
    repos := if repo_id = "" then [] else [⟨repo_id, base_branch⟩]
    issue_id := if task_id = "" then none else some task_id }

/-! ## Concrete fixtures used by witnesses and counterexamples -/

/-- A one-task manifest (the sample manifest of the repository's
tests, typed). -/
def exampleManifest : Manifest :=
  { project := some "Test Project"
    defaults := some ⟨some "claude-code", some "repo-uuid-123", some "main"⟩
    tasks := [{ title := "Build the widget"
                description := some "Implement the widget feature"
                priority := some "High"
                tags := some ["feature"]
                executor := some "claude-code"
                repo := none
                base_branch := none
                subtasks := none }]
    source := none }

/-- The shape of the dry-run results built by `entrypoint.py` lines
99-102: status `"skipped"`, neither `"success"` nor `"error"`. -/
def skippedResult : StepResult :=
  ⟨"create_task", "Build the widget", "skipped", none, none, none, none, none⟩

/-- A concrete mixed success/error results list. -/
def wResults : List StepResult :=
  [⟨"create_task", "a", "success", some "task-001", none, none, none, none⟩,
   ⟨"start_workspace", "a", "error", none, none, none, some "MCP error", none⟩]

/-! ## Helper lemmas about the planner -/

theorem taskSteps_tags (de dr db : String) (t : TaskDecl) :
    (taskSteps de dr db t).map stepTag =
      ("create_task", t.title, (none : Option String))
        :: ("start_workspace", t.title, none)
        :: (t.subtasks.getD []).map fun s =>
            ("create_task", subTitle s, some t.title) := by
  simp [taskSteps, stepTag, List.map_map, Function.comp]

theorem taskSteps_length (de dr db : String) (t : TaskDecl) :
    (taskSteps de dr db t).length = 2 + (t.subtasks.getD []).length := by
  simp [taskSteps]
  omega

theorem taskSteps_filter_ws (de dr db : String) (t : TaskDecl) :
    (taskSteps de dr db t).filter isStartWorkspace =
      [Step.startWorkspace t.title (t.executor.getD de) (t.repo.getD dr)
        (t.base_branch.getD db)] := by
  simp [taskSteps, isStartWorkspace, List.filter_map, Function.comp,
    List.filter_eq_nil]

theorem plan_steps_eq_join (m : Manifest) :
    (plan_execution m).steps =
      (m.tasks.map (taskSteps
        ((m.defaults.getD emptyDefaults).executor.getD "claude-code")
        ((m.defaults.getD emptyDefaults).repo.getD "")
        ((m.defaults.getD emptyDefaults).base_branch.getD "main"))).join := rfl

theorem join_taskSteps_length (de dr db : String) :
    ∀ ts : List TaskDecl,
      ((ts.map (taskSteps de dr db)).join).length
        = 2 * ts.length + (ts.map fun t => (t.subtasks.getD []).length).sum
  | [] => by simp
  | t :: ts => by
      simp only [List.map_cons, List.join_cons, List.length_append,
        List.sum_cons, List.length_cons, taskSteps_length,
        join_taskSteps_length de dr db ts]
      omega

theorem join_taskSteps_filter_ws (de dr db : String) :
    ∀ ts : List TaskDecl,
      ((ts.map (taskSteps de dr db)).join).filter isStartWorkspace
        = ts.map fun t =>
            Step.startWorkspace t.title (t.executor.getD de)
              (t.repo.getD dr) (t.base_branch.getD db)
  | [] => by simp
  | t :: ts => by
      simp only [List.map_cons, List.join_cons, List.filter_append,
        taskSteps_filter_ws, join_taskSteps_filter_ws de dr db ts]
      rfl

/-- C1: the plan orders its steps as, for each task in manifest order,
its create_task step, then its start_workspace step, then one
create_task step per subtask in declared order (tagged with the parent
title, so no subtask receives a start_workspace step). -/
theorem plan_execution_step_order (m : Manifest) :
    (plan_execution m).steps.map stepTag = orderedTagsSpec m := by
  rw [plan_steps_eq_join, orderedTagsSpec, List.map_join, List.map_map]
  refine congrArg List.join (List.map_congr_left fun t _ => ?_)
  exact taskSteps_tags _ _ _ t

/-- C4: a manifest with `N` top-level tasks and `S` total subtask
entries yields a plan of exactly `2N + S` steps, with summary
`total_tasks = N`, `total_subtasks = S`, `total_workspaces = N`. -/
theorem plan_execution_counts (m : Manifest) :
    (plan_execution m).steps.length
        = 2 * m.tasks.length + totalSubtaskEntries m
      ∧ (plan_execution m).summary.total_tasks = m.tasks.length
      ∧ (plan_execution m).summary.total_subtasks = totalSubtaskEntries m
      ∧ (plan_execution m).summary.total_workspaces = m.tasks.length := by
  refine ⟨?_, rfl, rfl, ?_⟩
  · rw [plan_steps_eq_join, join_taskSteps_length]
    rfl
  · show ((plan_execution m).steps.filter isStartWorkspace).length = _
    rw [plan_steps_eq_join, join_taskSteps_filter_ws, List.length_map]

/-- C8: the start_workspace steps of the plan are exactly, task by task
in manifest order, a step whose executor / repo / base branch are
resolved task-level value, then manifest default, then the hardcoded
fallback `"claude-code"` / empty repo / `"main"`. -/
theorem plan_execution_resolves_defaults (m : Manifest) :
    (plan_execution m).steps.filter isStartWorkspace =
      m.tasks.map fun t =>
        Step.startWorkspace t.title (resolvedExecutorSpec m t)
          (resolvedRepoSpec m t) (resolvedBranchSpec m t) := by
  rw [plan_steps_eq_join, join_taskSteps_filter_ws]
  rfl

/-! ## Helper lemmas about the executor -/

theorem execStep_result_tag {σ : Type} (c : Client σ) (pid : String)
    (st : σ × Table × List StepResult) (step : Step) :
    ∃ r, (execStep c pid st step).2.2 = st.2.2 ++ [r]
      ∧ resultTag r = stepActionTitle step := by
  cases step with
  | createTask title desc prio tags parent =>
      rcases h : c.create_task st.1 pid title desc with ⟨s2, r⟩
      cases r with
      | ok resp =>
          exact ⟨⟨"create_task", title, "success",
            some (resp.issue_id.getD (resp.id.getD "")), none, none, none,
            some resp⟩, by simp [execStep, h], rfl⟩
      | error e =>
          exact ⟨⟨"create_task", title, "error", none, none, none, some e,
            none⟩, by simp [execStep, h], rfl⟩
  | startWorkspace title ex rp br =>
      rcases h : c.start_workspace st.1 (tableGet st.2.1 title) title ex rp br
        with ⟨s2, r⟩
      cases r with
      | ok resp =>
          exact ⟨⟨"start_workspace", title, "success",
            some (tableGet st.2.1 title), some (resp.workspace_id.getD ""),
            some ex, none, some resp⟩, by simp [execStep, h], rfl⟩
      | error e =>
          exact ⟨⟨"start_workspace", title, "error", none, none, none,
            some e, none⟩, by simp [execStep, h], rfl⟩

theorem execStep_log_tag {σ : Type} (c : Client σ) (pid : String)
    (st : (σ × List Call) × Table × List StepResult) (step : Step) :
    ∃ call, (execStep (loggingClient c) pid st step).1.2 = st.1.2 ++ [call]
      ∧ callTag call = stepActionTitle step := by
  cases step with
  | createTask title desc prio tags parent =>
      refine ⟨Call.create pid title desc, ?_, rfl⟩
      rcases h : c.create_task st.1.1 pid title desc with ⟨s2, r⟩
      cases r <;> simp [execStep, loggingClient, h]
  | startWorkspace title ex rp br =>
      refine ⟨Call.start (tableGet st.2.1 title) title ex rp br, ?_, rfl⟩
      rcases h : c.start_workspace st.1.1 (tableGet st.2.1 title) title ex rp br
        with ⟨s2, r⟩
      cases r <;> simp [execStep, loggingClient, h]

theorem foldl_execStep_results {σ : Type} (c : Client σ) (pid : String) :
    ∀ (steps : List Step) (st : σ × Table × List StepResult),
      ((steps.foldl (execStep c pid) st).2.2).map resultTag
        = st.2.2.map resultTag ++ steps.map stepActionTitle
  | [], st => by simp
  | s :: rest, st => by
      obtain ⟨r, hr, ht⟩ := execStep_result_tag c pid st s
      simp only [List.foldl_cons, List.map_cons,
        foldl_execStep_results c pid rest (execStep c pid st s), hr]
      simp [ht]

theorem foldl_execStep_log {σ : Type} (c : Client σ) (pid : String) :
    ∀ (steps : List Step) (st : (σ × List Call) × Table × List StepResult),
      ((steps.foldl (execStep (loggingClient c) pid) st).1.2).map callTag
        = st.1.2.map callTag ++ steps.map stepActionTitle
  | [], st => by simp
  | s :: rest, st => by
      obtain ⟨call, hc, ht⟩ := execStep_log_tag c pid st s
      simp only [List.foldl_cons, List.map_cons,
        foldl_execStep_log c pid rest (execStep (loggingClient c) pid st s), hc]
      simp [ht]

/-- C2: for every plan and every client — failing calls included —
`execute_plan` returns exactly one result per input step, in step
order (the (action, title) tags of the results equal those of the
steps), and the call log of a logging wrapper around the client shows
exactly one attempted call per step, in step order, so no failure
aborts the remaining plan. -/
theorem execute_plan_one_result_one_attempt {σ : Type} (c : Client σ)
    (s0 : σ) (pid : String) (plan : Plan) :
    (execute_plan plan c s0 pid).map resultTag
        = plan.steps.map stepActionTitle
      ∧ (executionLog plan c s0 pid).map callTag
        = plan.steps.map stepActionTitle := by
  constructor
  · have := foldl_execStep_results c pid plan.steps (s0, [], [])
    simpa [execute_plan, execAll] using this
  · have := foldl_execStep_log c pid plan.steps ((s0, []), [], [])
    simpa [executionLog, execAll] using this

/-- C3: (1) when a create_task call raises, the step yields an
error-status result and the title→identifier table is unchanged;
(2) when it succeeds, the returned identifier is recorded under the
step's title, overwriting any prior entry for exactly that title and
leaving every other title's lookup unchanged; (3) a start_workspace
step whose title has no table entry is still attempted: the client is
invoked with the empty-string task identifier. -/
theorem execute_plan_create_failure_semantics {σ : Type} (c : Client σ)
    (s : σ) (tbl : Table) (rs : List StepResult)
    (pid title desc prio : String) (tags : List String)
    (parent : Option String) :
    (∀ s2 msg, c.create_task s pid title desc = (s2, .error msg) →
        execStep c pid (s, tbl, rs) (.createTask title desc prio tags parent)
          = (s2, tbl, rs ++ [⟨"create_task", title, "error", none, none,
              none, some msg, none⟩]))
    ∧ (∀ s2 resp, c.create_task s pid title desc = (s2, .ok resp) →
        execStep c pid (s, tbl, rs) (.createTask title desc prio tags parent)
            = (s2, (title, resp.issue_id.getD (resp.id.getD "")) :: tbl,
                rs ++ [⟨"create_task", title, "success",
                  some (resp.issue_id.getD (resp.id.getD "")), none, none,
                  none, some resp⟩])
          ∧ tableGet ((title, resp.issue_id.getD (resp.id.getD "")) :: tbl)
              title = resp.issue_id.getD (resp.id.getD "")
          ∧ ∀ u, u ≠ title →
              List.lookup u ((title, resp.issue_id.getD (resp.id.getD ""))
                  :: tbl)
                = List.lookup u tbl)
    ∧ (∀ (log : List Call) (ex rp br : String),
        List.lookup title tbl = none →
          (execStep (loggingClient c) pid ((s, log), tbl, rs)
              (.startWorkspace title ex rp br)).1.2
            = log ++ [Call.start "" title ex rp br]) := by
  refine ⟨?_, ?_, ?_⟩
  · intro s2 msg h
    simp [execStep, h]
  · intro s2 resp h
    refine ⟨by simp [execStep, h], by simp [tableGet, List.lookup], ?_⟩
    intro u hu
    have hb : (u == title) = false := beq_eq_false_iff_ne.mpr hu
    simp [List.lookup, hb]
  · intro log ex rp br h
    have hg : tableGet tbl title = "" := by simp [tableGet, h]
    rcases hw : c.start_workspace s "" title ex rp br with ⟨s2, r⟩
    cases r <;> simp [execStep, loggingClient, hg, hw]

/-- Witness for C3, at concrete clients: a failing create leaves the
table empty and yields the error result; a succeeding create records
`task-001` under the title; with an empty table the workspace step is
attempted with the empty identifier. -/
theorem execute_plan_create_failure_semantics_witness :
    execStep failingClient "proj-1" ((), [], [])
        (.createTask "t" "" "Medium" [] none)
      = ((), [], [⟨"create_task", "t", "error", none, none, none,
          some "MCP error", none⟩])
    ∧ execStep okClient "proj-1" ((), [], [])
        (.createTask "t" "" "Medium" [] none)
      = ((), [("t", "task-001")], [⟨"create_task", "t", "success",
          some "task-001", none, none, none,
          some ⟨some "task-001", none, none⟩⟩])
    ∧ (execStep (loggingClient failingClient) "proj-1" (((), []), [], [])
        (.startWorkspace "t" "claude-code" "" "main")).1.2
      = [Call.start "" "t" "claude-code" "" "main"] := by
  obtain ⟨h1, _, h3⟩ := execute_plan_create_failure_semantics failingClient
    () [] [] "proj-1" "t" "" "Medium" [] none
  obtain ⟨_, g2, _⟩ := execute_plan_create_failure_semantics okClient
    () [] [] "proj-1" "t" "" "Medium" [] none
  exact ⟨h1 () "MCP error" rfl,
    (g2 () ⟨some "task-001", none, none⟩ rfl).1,
    h3 [] "claude-code" "" "main" rfl⟩

/-! ## Reporter and client-argument theorems -/

theorem countP_status_total :
    ∀ rs : List StepResult,
      (∀ r ∈ rs, r.status = "success" ∨ r.status = "error") →
        (rs.countP fun r => r.status == "success")
          + (rs.countP fun r => r.status == "error") = rs.length
  | [], _ => rfl
  | r :: rs, h => by
      have hr := h r (List.mem_cons_self r rs)
      have ih := countP_status_total rs fun x hx => h x (List.mem_cons_of_mem r hx)
      rcases hr with hr | hr <;>
        simp only [List.countP_cons, hr, List.length_cons] <;>
        simp <;> omega

/-- C7 (amended): for every results list whose entries each carry
status `"success"` or `"error"` — in particular any list produced by
`execute_plan` — the report satisfies
`succeeded + failed = len(results) = total_steps`; both counts are
non-negative.  (The amendment is needed because the dry-run path of
`entrypoint.py` feeds `"skipped"` results to the same reporter.) -/
theorem build_execution_report_count_invariant (manifest : Manifest)
    (plan : Plan) (results : List StepResult) (pid now : String)
    (h : ∀ r ∈ results, r.status = "success" ∨ r.status = "error") :
    (build_execution_report manifest plan results pid now).summary.succeeded
        + (build_execution_report manifest plan results pid now).summary.failed
        = results.length
      ∧ (build_execution_report manifest plan results pid now).summary.total_steps
        = results.length
      ∧ 0 ≤ (build_execution_report manifest plan results pid now).summary.succeeded
      ∧ 0 ≤ (build_execution_report manifest plan results pid now).summary.failed := by
  exact ⟨countP_status_total results h, rfl, Nat.zero_le _, Nat.zero_le _⟩

/-- Witness for C7 at a concrete mixed results list. -/
theorem build_execution_report_count_invariant_witness :
    (build_execution_report exampleManifest (plan_execution exampleManifest)
          wResults "proj-1" "t0").summary.succeeded
        + (build_execution_report exampleManifest (plan_execution exampleManifest)
          wResults "proj-1" "t0").summary.failed
        = wResults.length
      ∧ (build_execution_report exampleManifest (plan_execution exampleManifest)
          wResults "proj-1" "t0").summary.total_steps
        = wResults.length
      ∧ 0 ≤ (build_execution_report exampleManifest (plan_execution exampleManifest)
          wResults "proj-1" "t0").summary.succeeded
      ∧ 0 ≤ (build_execution_report exampleManifest (plan_execution exampleManifest)
          wResults "proj-1" "t0").summary.failed :=
  build_execution_report_count_invariant exampleManifest
    (plan_execution exampleManifest) wResults "proj-1" "t0" (by decide)

/-- Counterexample to C7 as stated: on the dry-run `"skipped"` result
produced by `entrypoint.py` lines 99-102, the report has
`succeeded + failed = 0` but `total_steps = 1`. -/
theorem build_execution_report_count_invariant_cex :
    (build_execution_report exampleManifest (plan_execution exampleManifest)
          [skippedResult] "proj-1" "t0").summary.succeeded
        + (build_execution_report exampleManifest (plan_execution exampleManifest)
          [skippedResult] "proj-1" "t0").summary.failed
      ≠ (build_execution_report exampleManifest (plan_execution exampleManifest)
          [skippedResult] "proj-1" "t0").summary.total_steps := by
  decide

/-- C9: `start_workspace` tolerates an empty task identifier (the
`issue_id` key is omitted) and an empty repo identifier (the `repos`
argument is the empty list); with both empty the argument object is
still fully built, so neither case fails. -/
theorem start_workspace_args_tolerates_empty
    (tid title ex rid br : String) :
    (start_workspace_args "" title ex rid br).issue_id = none
      ∧ (start_workspace_args tid title ex "" br).repos = []
      ∧ start_workspace_args "" title ex "" br
        = ⟨title, pyUpper ex, [], none⟩ := by
  refine ⟨?_, ?_, ?_⟩ <;> simp [start_workspace_args]

/-- C10: the executor kind sent to the remote service is the uppercased
form of the given executor string — `"claude-code"` is sent as
`"CLAUDE-CODE"` — although the validator's enumerated kinds are all
lowercase (the uppercase form is not itself a valid kind). -/
theorem start_workspace_args_uppercases_executor
    (tid title ex rid br : String) :
    (start_workspace_args tid title ex rid br).executor = pyUpper ex
      ∧ (start_workspace_args tid title "claude-code" rid br).executor
        = "CLAUDE-CODE"
      ∧ VALID_EXECUTORS.contains "claude-code" = true
      ∧ VALID_EXECUTORS.contains "CLAUDE-CODE" = false :=
  ⟨rfl, rfl, by decide, by decide⟩

/-! ## Validator theorems -/

theorem exceptBind_ok {α β ε : Type} (a : α) (f : α → Except ε β) :
    (Except.ok a >>= f) = f a := rfl

theorem exceptBind_error {α β ε : Type} (e : ε) (f : α → Except ε β) :
    ((Except.error e : Except ε α) >>= f) = Except.error e := rfl

theorem chkMember_hashable (v : JVal) (s : List String)
    (h : hashableJ v = true) : chkMember v s = .ok (memberPure v s) := by
  cases v <;> simp [hashableJ] at h ⊢ <;> rfl

theorem exceptPure {α ε : Type} (a : α) :
    (pure a : Except ε α) = Except.ok a := rfl

theorem execErrsE_hashable (i : Nat) (kvs : List (String × JVal))
    (h : fieldHashable kvs "executor" = true) :
    execErrsE i kvs = .ok (execErrsSpec i kvs) := by
  cases hk : kvs.lookup "executor" with
  | none => simp [execErrsE, execErrsSpec, hk, exceptPure]
  | some v =>
      simp only [fieldHashable, hk] at h
      simp [execErrsE, execErrsSpec, hk, chkMember_hashable v _ h,
        exceptBind_ok, exceptPure]

theorem prioErrsE_hashable (i : Nat) (kvs : List (String × JVal))
    (h : fieldHashable kvs "priority" = true) :
    prioErrsE i kvs = .ok (prioErrsSpec i kvs) := by
  cases hk : kvs.lookup "priority" with
  | none => simp [prioErrsE, prioErrsSpec, hk, exceptPure]
  | some v =>
      simp only [fieldHashable, hk] at h
      simp [prioErrsE, prioErrsSpec, hk, chkMember_hashable v _ h,
        exceptBind_ok, exceptPure]

theorem validateTask_hashable (i : Nat) (t : JVal)
    (h : taskFieldsHashable t = true) :
    validateTask i t = .ok (validateTaskSpec i t) := by
  cases t with
  | obj kvs =>
      rw [taskFieldsHashable, Bool.and_eq_true] at h
      show (execErrsE i kvs >>= fun execErrs =>
        prioErrsE i kvs >>= fun prioErrs =>
          pure (titleErrsOf i kvs ++ execErrs ++ prioErrs)) = _
      rw [execErrsE_hashable i kvs h.1, exceptBind_ok,
        prioErrsE_hashable i kvs h.2, exceptBind_ok]
      rfl
  | null => rfl
  | bool b => rfl
  | num n => rfl
  | str s => rfl
  | arr xs => rfl

theorem validateTasks_hashable :
    ∀ (ts : List JVal) (i : Nat), ts.all taskFieldsHashable = true →
      validateTasks i ts = .ok (validateTasksSpec i ts)
  | [], _, _ => rfl
  | t :: rest, i, h => by
      rw [List.all_cons, Bool.and_eq_true] at h
      show (validateTask i t >>= fun es =>
        validateTasks (i + 1) rest >>= fun esr => pure (es ++ esr)) = _
      rw [validateTask_hashable i t h.1, exceptBind_ok,
        validateTasks_hashable rest (i + 1) h.2, exceptBind_ok]
      rfl

/-- C5 (amended): for every dict manifest whose task entries carry
hashable (non-list, non-dict) executor and priority values,
`validate_manifest` raises nothing and returns the full accumulated
violation list `validateManifestSpec` — which scans every required key
and every task rather than stopping at the first violation.  (The
amendment is needed because a list- or dict-valued executor or
priority makes the source raise `TypeError`, see the
counterexample.) -/
theorem validate_manifest_total_on_hashable (m : JDict)
    (h : manifestHashable m = true) :
    validate_manifest m = .ok (validateManifestSpec m) := by
  unfold validate_manifest validateManifestSpec manifestHashable at *
  cases hk : List.lookup "tasks" m with
  | none => simp [tasksErrsE, tasksErrsSpec, hk, exceptBind_ok, exceptPure]
  | some v =>
      cases v with
      | arr ts =>
          simp only [hk] at h
          by_cases hlen : ts.length = 0
          · simp [tasksErrsE, tasksErrsSpec, hk, hlen, exceptBind_ok,
              exceptPure]
          · simp [tasksErrsE, tasksErrsSpec, hk, hlen,
              validateTasks_hashable ts 0 h, exceptBind_ok, exceptPure]
      | null =>
          simp [tasksErrsE, tasksErrsSpec, hk, exceptBind_ok, exceptPure]
      | bool b =>
          simp [tasksErrsE, tasksErrsSpec, hk, exceptBind_ok, exceptPure]
      | num n =>
          simp [tasksErrsE, tasksErrsSpec, hk, exceptBind_ok, exceptPure]
      | str s =>
          simp [tasksErrsE, tasksErrsSpec, hk, exceptBind_ok, exceptPure]
      | obj kvs =>
          simp [tasksErrsE, tasksErrsSpec, hk, exceptBind_ok, exceptPure]

/-- Witness for C5 at a manifest with several (hashable) violations:
no exception, and all five violations are accumulated. -/
theorem validate_manifest_total_on_hashable_witness :
    validate_manifest multiErrManifest
        = .ok (validateManifestSpec multiErrManifest)
      ∧ (validateManifestSpec multiErrManifest).length = 5 :=
  ⟨validate_manifest_total_on_hashable multiErrManifest rfl, rfl⟩

/-- Counterexample to C5 as stated: on a structurally-parseable
manifest whose executor is a JSON list, `validate_manifest` raises
(`TypeError`, from hashing a list in the set-membership test) instead
of returning an error list. -/
theorem validate_manifest_raises_cex :
    validate_manifest listExecManifest
      = .error "TypeError: unhashable type: list" := rfl

theorem keyErrsOf_nil (m : JDict) (h : keyErrsOf m = []) :
    (List.lookup "version" m).isSome = true
      ∧ (List.lookup "tasks" m).isSome = true
      ∧ (List.lookup "project" m).isSome = true := by
  refine ⟨?_, ?_, ?_⟩ <;> by_contra hx <;>
    rw [Bool.not_eq_true] at hx
  · have : (s!"Missing required key: version") ∈ keyErrsOf m :=
      List.mem_filterMap.mpr ⟨"version", by simp [REQUIRED_MANIFEST_KEYS],
        by simp [hx]; rfl⟩
    rw [h] at this
    exact absurd this (List.not_mem_nil _)
  · have : (s!"Missing required key: tasks") ∈ keyErrsOf m :=
      List.mem_filterMap.mpr ⟨"tasks", by simp [REQUIRED_MANIFEST_KEYS],
        by simp [hx]; rfl⟩
    rw [h] at this
    exact absurd this (List.not_mem_nil _)
  · have : (s!"Missing required key: project") ∈ keyErrsOf m :=
      List.mem_filterMap.mpr ⟨"project", by simp [REQUIRED_MANIFEST_KEYS],
        by simp [hx]; rfl⟩
    rw [h] at this
    exact absurd this (List.not_mem_nil _)

theorem validateTask_ok_nil (i : Nat) (t : JVal)
    (h : validateTask i t = .ok []) :
    ∃ kvs, t = .obj kvs ∧ (kvs.lookup "title").isSome = true := by
  cases t with
  | obj kvs =>
      refine ⟨kvs, rfl, ?_⟩
      by_contra hti
      rw [Bool.not_eq_true] at hti
      cases hE : execErrsE i kvs with
      | error e => simp [validateTask, hE, exceptBind_error] at h
      | ok es =>
          cases hP : prioErrsE i kvs with
          | error e =>
              simp [validateTask, hE, hP, exceptBind_ok, exceptBind_error] at h
          | ok ps =>
              simp [validateTask, hE, hP, exceptBind_ok, exceptPure,
                titleErrsOf, hti] at h
  | null => simp [validateTask] at h
  | bool b => simp [validateTask] at h
  | num n => simp [validateTask] at h
  | str s => simp [validateTask] at h
  | arr xs => simp [validateTask] at h

theorem validateTasks_ok_nil :
    ∀ (ts : List JVal) (i : Nat), validateTasks i ts = .ok [] →
      ∀ t ∈ ts, ∃ kvs, t = .obj kvs ∧ (kvs.lookup "title").isSome = true
  | [], _, _, t, ht => absurd ht (List.not_mem_nil t)
  | t0 :: rest, i, h, t, ht => by
      cases hE : validateTask i t0 with
      | error e => simp [validateTasks, hE, exceptBind_error] at h
      | ok es =>
          cases hR : validateTasks (i + 1) rest with
          | error e =>
              simp [validateTasks, hE, hR, exceptBind_ok,
                exceptBind_error] at h
          | ok esr =>
              simp only [validateTasks, hE, hR, exceptBind_ok,
                exceptPure, Except.ok.injEq] at h
              have hboth := List.append_eq_nil.mp h
              rcases List.mem_cons.mp ht with rfl | ht2
              · exact validateTask_ok_nil i t (hboth.1 ▸ hE)
              · exact validateTasks_ok_nil rest (i + 1) (hboth.2 ▸ hR) t ht2

/-- C6 (amended): when `validate_manifest` returns the empty error
list, the manifest has the `version` and `project` keys, `tasks` is a
non-empty list, and every task entry is a dict carrying a `title` key.
(No more follows: the validator never inspects the project value or
the title value, so empty-string project names and titles pass, see
the counterexample.) -/
theorem validate_manifest_ok_structure (m : JDict)
    (h : validate_manifest m = .ok []) :
    (List.lookup "version" m).isSome = true
      ∧ (List.lookup "project" m).isSome = true
      ∧ ∃ ts, List.lookup "tasks" m = some (.arr ts) ∧ ts ≠ []
          ∧ ∀ t ∈ ts, ∃ kvs, t = .obj kvs
              ∧ (kvs.lookup "title").isSome = true := by
  cases hT : tasksErrsE m with
  | error e => simp [validate_manifest, hT, exceptBind_error] at h
  | ok te =>
      simp only [validate_manifest, hT, exceptBind_ok, exceptPure,
        Except.ok.injEq] at h
      have hk : keyErrsOf m = [] := (List.append_eq_nil.mp h).1
      have hte : te = [] := (List.append_eq_nil.mp h).2
      obtain ⟨hv, htk, hp⟩ := keyErrsOf_nil m hk
      refine ⟨hv, hp, ?_⟩
      obtain ⟨v, hveq⟩ := Option.isSome_iff_exists.mp htk
      cases v with
      | arr ts =>
          by_cases hlen : ts.length = 0
          · exfalso
            rw [hte] at hT
            simp [tasksErrsE, hveq, hlen, exceptPure] at hT
          · refine ⟨ts, hveq, fun hnil => hlen (by simp [hnil]), ?_⟩
            have hvt : validateTasks 0 ts = .ok te := by
              simpa [tasksErrsE, hveq, hlen] using hT
            exact validateTasks_ok_nil ts 0 (hte ▸ hvt)
      | null =>
          rw [hte] at hT
          simp [tasksErrsE, hveq, exceptPure] at hT
      | bool b =>
          rw [hte] at hT
          simp [tasksErrsE, hveq, exceptPure] at hT
      | num n =>
          rw [hte] at hT
          simp [tasksErrsE, hveq, exceptPure] at hT
      | str s =>
          rw [hte] at hT
          simp [tasksErrsE, hveq, exceptPure] at hT
      | obj kvs =>
          rw [hte] at hT
          simp [tasksErrsE, hveq, exceptPure] at hT

/-- Witness for C6 at a fully valid raw manifest. -/
theorem validate_manifest_ok_structure_witness :
    (List.lookup "version" validRawManifest).isSome = true
      ∧ (List.lookup "project" validRawManifest).isSome = true
      ∧ ∃ ts, List.lookup "tasks" validRawManifest = some (.arr ts) ∧ ts ≠ []
          ∧ ∀ t ∈ ts, ∃ kvs, t = .obj kvs
              ∧ (kvs.lookup "title").isSome = true :=
  validate_manifest_ok_structure validRawManifest rfl

/-- Counterexample to C6 as stated: the validator accepts (returns the
empty error list for) a manifest whose project name and sole task
title are empty strings, so the claimed non-emptiness invariant does
not follow. -/
theorem validate_manifest_ok_invariant_cex :
    validate_manifest emptyStringsManifest = .ok []
      ∧ manifestInvariantSpec emptyStringsManifest = false := ⟨rfl, rfl⟩
